import Mathlib

/-!
Shallow embedding of the Finexo Excel Data Importer validation core.

Client side (frontend/src/utils/errorHandling.ts and frontend/src/App.tsx):
`validateExcelData`, `validateSheetStructure`, `formatValidationErrors`,
`handleAxiosError`, and the per-cell normalization performed in
`handleFileSelect`.

Server side (backend/services/excel.service.js with
backend/config/excel.config.js): `validateRow` / `validateField` /
`validateSheetData` under the default sheet configuration.

JavaScript cell values are modelled by the inductive type `JSVal`
(numbers as rationals, `null`/`undefined` collapsed into one constructor —
the code never distinguishes them on the paths embedded here), a decoded
row by an association list of column name to value (a JS object, so keys
are unique), and the two opaque pieces of JavaScript library behaviour —
`Number(string)` and date-literal parsing by `new Date(string)` — by the
explicit oracle parameters `pn : String → Option ℚ` and
`pd : String → Option ℤ` (`none` encodes NaN / an invalid date).
The server-side `isCurrentMonth` validator from backend/utils/validators
is abstracted as a boolean oracle `icm : ℤ → Bool` on the parsed
timestamp; no theorem below depends on its value.
-/

/-- Severity of a finding, `'error' | 'warning' | 'info'` in the source. -/
inductive Severity where
  | error
  | warning
  | info
deriving DecidableEq

/-- The `ValidationError` record of errorHandling.ts. Optional fields are
`Option`s; `severity?` is optional in the interface. -/
structure Finding where
  row : Nat
  column : Option String := none
  message : String
  sheetName : Option String := none
  severity : Option Severity := none
deriving DecidableEq

/-- A JavaScript cell value as produced by sheet decoding: absent
(`null`/`undefined`), a number, a string, a boolean, or a `Date` object
(identified by its millisecond timestamp, as produced when the workbook is
read with `cellDates: true`). -/
inductive JSVal where
  | null
  | num (v : ℚ)
  | str (s : String)
  | bool (b : Bool)
  | date (ms : ℤ)
deriving DecidableEq

/-- A decoded row: a JS object mapping column names to cell values.
Keys are assumed unique (JS object keys are). -/
def Row := List (String × JSVal)

/-- Property read `row[k]`: the value at key `k`, `null` when absent
(JS gives `undefined`; the embedded code treats the two alike). -/
def getK (r : Row) (k : String) : JSVal :=
  match r.find? (fun p => p.1 == k) with
  | some p => p.2
  | none => JSVal.null

/-- The JS `in` operator: key presence, regardless of the stored value. -/
def hasK (r : Row) (k : String) : Bool :=
  r.any (fun p => p.1 == k)

/-- `Object.keys`. -/
def jsKeys (r : Row) : List String :=
  r.map Prod.fst

/-- JavaScript truthiness of a cell value (`0`, `""`, `false`,
`null`/`undefined` are falsy; every object, including a `Date`, is truthy). -/
def jsTruthy : JSVal → Bool
  | JSVal.null => false
  | JSVal.num v => v != 0
  | JSVal.str s => s != ""
  | JSVal.bool b => b
  | JSVal.date _ => true

/-- The JS `Number(x)` coercion; `none` is NaN. Strings go through the
oracle `pn`. (`Number(null) = 0`; the `null` case is unreachable in the
embedded call sites, which test for null/missing first.) -/
def jsToNumber (pn : String → Option ℚ) : JSVal → Option ℚ
  | JSVal.null => some 0
  | JSVal.num v => some v
  | JSVal.str s => pn s
  | JSVal.bool b => some (if b then 1 else 0)
  | JSVal.date ms => some (ms : ℚ)

/-- `Math.round`: floor of `x + 1/2`. -/
def jsRound (x : ℚ) : ℤ := ⌊x + 1/2⌋

/-- Truncation toward zero, as `new Date(number)` applies to its argument. -/
def jsTrunc (x : ℚ) : ℤ := x.num / (x.den : ℤ)

/-- The timestamp of `new Date(x)`; `none` is an invalid date. String
arguments go through the date-parsing oracle `pd`. -/
def jsNewDate (pd : String → Option ℤ) : JSVal → Option ℤ
  | JSVal.null => some 0
  | JSVal.num v => some (jsTrunc v)
  | JSVal.str s => pd s
  | JSVal.bool b => some (if b then 1 else 0)
  | JSVal.date ms => some ms

/-- The JS `String(x)` coercion. Number/date formatting is approximated;
no theorem below inspects these strings. -/
def jsToString : JSVal → String
  | JSVal.null => "null"
  | JSVal.num v => toString v
  | JSVal.str s => s
  | JSVal.bool b => if b then "true" else "false"
  | JSVal.date ms => toString ms

/-- Civil date (year, month, day) of a day count relative to 1970-01-01,
the standard proleptic-Gregorian conversion used by `Date.toISOString`. -/
def civilFromDays (z : ℤ) : ℤ × ℕ × ℕ :=
  let z' := z + 719468
  let era : ℤ := z'.fdiv 146097
  let doe : ℕ := (z' - era * 146097).toNat
  let yoe : ℕ := (doe - doe / 1460 + doe / 36524 - doe / 146096) / 365
  let y : ℤ := (yoe : ℤ) + era * 400
  let doy : ℕ := doe - (365 * yoe + yoe / 4 - yoe / 100)
  let mp : ℕ := (5 * doy + 2) / 153
  let d : ℕ := doy - (153 * mp + 2) / 5 + 1
  let m : ℕ := if mp < 10 then mp + 3 else mp - 9
  (if m ≤ 2 then y + 1 else y, m, d)

/-- Two-digit zero padding, as in an ISO date. -/
def pad2 (n : ℕ) : String :=
  if n < 10 then "0" ++ toString n else toString n

/-- `YYYY-MM-DD` rendering of a day count relative to 1970-01-01. -/
def isoDateOfDays (z : ℤ) : String :=
  let c := civilFromDays z
  toString c.1 ++ "-" ++ pad2 c.2.1 ++ "-" ++ pad2 c.2.2

/-- `new Date(ms).toISOString().split('T')[0]`: the UTC calendar date of a
millisecond timestamp. -/
def msToIsoDate (ms : ℤ) : String :=
  isoDateOfDays (ms.fdiv 86400000)

/-- `toLowerCase` on one character (ASCII; the embedded code only ever
compares against ASCII tokens). -/
def jsCharToLower (c : Char) : Char :=
  if 'A' ≤ c ∧ c ≤ 'Z' then Char.ofNat (c.toNat + 32) else c

/-- The JS `toLowerCase()` (ASCII fragment). -/
def jsToLower (s : String) : String :=
  String.mk (s.data.map jsCharToLower)

/-- The JS `trim()`: strip leading and trailing whitespace. -/
def jsTrim (s : String) : String :=
  String.mk (((s.data.dropWhile Char.isWhitespace).reverse.dropWhile
    Char.isWhitespace).reverse)

/-- `pat` is a prefix of `s` (character lists). -/
def isPrefixCL (pat : List Char) : List Char → Bool :=
  fun s =>
    match pat, s with
    | [], _ => true
    | _ :: _, [] => false
    | a :: as, b :: bs => a == b && isPrefixCL as bs

/-- `pat` occurs as a contiguous substring of `s` (character lists). -/
def containsCL (pat : List Char) : List Char → Bool
  | [] => isPrefixCL pat []
  | c :: rest => isPrefixCL pat (c :: rest) || containsCL pat rest

/-- Substring test (used to embed the `/date|dt|time/i` regex test). -/
def strContains (s pat : String) : Bool :=
  containsCL pat.data s.data

/-- The `/date|dt|time/i.test(key)` name-pattern check of App.tsx. -/
def dateKey (k : String) : Bool :=
  strContains (jsToLower k) "date" || strContains (jsToLower k) "dt" ||
    strContains (jsToLower k) "time"

/-- Per-cell normalization performed in App.tsx `handleFileSelect` over
every decoded row: the `Verified` column is coerced to a boolean
(`value.toLowerCase().trim() === 'yes'` for strings, booleans kept,
anything else `null`); columns whose name matches `/date|dt|time/i` are
converted from an Excel serial number or a parsed date string to a
`YYYY-MM-DD` string (`Math.round((value - 25569) * 86400 * 1000)`
milliseconds, then `toISOString().split('T')[0]`), with falsy values
mapped to `null`; all other columns pass through. -/
def normalizeCell (pd : String → Option ℤ) (k : String) (v : JSVal) : JSVal :=
  if k == "Verified" then
    match v with
    | JSVal.str s => JSVal.bool (jsTrim (jsToLower s) == "yes")
    | JSVal.bool b => JSVal.bool b
    | _ => JSVal.null
  else if dateKey k then
    if jsTruthy v then
      match v with
      | JSVal.num x => JSVal.str (msToIsoDate (jsRound ((x - 25569) * 86400000)))
      | JSVal.str s =>
        match pd s with
        | some ms => JSVal.str (msToIsoDate ms)
        | none => JSVal.null
      | _ => v
    else JSVal.null
  else v

/-- Row normalization: `{...row}` updated key by key by `normalizeCell`. -/
def normalizeRow (pd : String → Option ℤ) (r : Row) : Row :=
  r.map (fun p => (p.1, normalizeCell pd p.1 p.2))

/-- The required header columns of errorHandling.ts. -/
def requiredColumns : List String := ["Name", "Amount", "Date", "Verified"]

/-- `requiredColumns.filter(col => !(col in firstRow))`. -/
def missingColumnsOf (r : Row) : List String :=
  requiredColumns.filter (fun c => !(hasK r c))

/-- `Object.keys(firstRow).filter(col => !requiredColumns.includes(col))`. -/
def extraColumnsOf (r : Row) : List String :=
  (jsKeys r).filter (fun c => !(requiredColumns.contains c))

/-- The `// Validate Name` block of `validateExcelData`, for one row:
the error findings it pushes, paired with the warning findings. -/
def clientNameCheck (r : Row) (n : ℕ) : List Finding × List Finding :=
  let v := getK r "Name"
  if !(jsTruthy v) then
    ([⟨n, some "Name", "Name is required", none, some Severity.error⟩], [])
  else
    match v with
    | JSVal.str s =>
      if (jsTrim s).length == 0 then
        ([⟨n, some "Name", "Name cannot be empty", none, some Severity.error⟩], [])
      else if s.length > 100 then
        ([], [⟨n, some "Name", "Name is unusually long (>100 characters)", none,
              some Severity.warning⟩])
      else ([], [])
    | _ => ([⟨n, some "Name", "Name must be text", none, some Severity.error⟩], [])

/-- The `// Validate Amount` block of `validateExcelData`, for one row. -/
def clientAmountCheck (pn : String → Option ℚ) (r : Row) (n : ℕ) :
    List Finding × List Finding :=
  let v := getK r "Amount"
  if v = JSVal.null then
    ([⟨n, some "Amount", "Amount is required", none, some Severity.error⟩], [])
  else
    match jsToNumber pn v with
    | none =>
      ([⟨n, some "Amount", "Amount must be a number", none, some Severity.error⟩], [])
    | some amount =>
      if amount ≤ 0 then
        ([⟨n, some "Amount", "Amount must be positive", none, some Severity.error⟩], [])
      else if amount > 1000000 then
        ([], [⟨n, some "Amount", "Amount is unusually large (>1,000,000)", none,
              some Severity.warning⟩])
      else ([], [])

/-- The `// Validate Date` block of `validateExcelData`, for one row;
`now` is the timestamp of `new Date()` at the time of the run. -/
def clientDateCheck (pd : String → Option ℤ) (now : ℤ) (r : Row) (n : ℕ) :
    List Finding × List Finding :=
  let v := getK r "Date"
  if !(jsTruthy v) then
    ([⟨n, some "Date", "Date is required", none, some Severity.error⟩], [])
  else
    match jsNewDate pd v with
    | none =>
      ([⟨n, some "Date", "Invalid date format", none, some Severity.error⟩], [])
    | some t =>
      ([], if t > now then
        [⟨n, some "Date", "Date is in the future", none, some Severity.warning⟩]
      else [])

/-- The `// Validate Verified` block of `validateExcelData`, for one row. -/
def clientVerifiedCheck (r : Row) (n : ℕ) : List Finding × List Finding :=
  let v := getK r "Verified"
  if v = JSVal.null then
    ([⟨n, some "Verified", "Verified status is required", none, some Severity.error⟩], [])
  else
    match v with
    | JSVal.str s =>
      let t := jsTrim (jsToLower s)
      if t ≠ "yes" ∧ t ≠ "no" ∧ t ≠ "true" ∧ t ≠ "false" then
        ([⟨n, some "Verified", "Verified must be Yes/No or True/False", none,
          some Severity.error⟩], [])
      else ([], [])
    | JSVal.bool _ => ([], [])
    | _ =>
      ([⟨n, some "Verified", "Verified must be a boolean value", none,
        some Severity.error⟩], [])

/-- One iteration of the `data.forEach` loop of `validateExcelData`: the
errors and warnings pushed for the row at display position `n`. -/
def clientRowChecks (pn : String → Option ℚ) (pd : String → Option ℤ)
    (now : ℤ) (r : Row) (n : ℕ) : List Finding × List Finding :=
  let nc := clientNameCheck r n
  let ac := clientAmountCheck pn r n
  let dc := clientDateCheck pd now r n
  let vc := clientVerifiedCheck r n
  (nc.1 ++ ac.1 ++ dc.1 ++ vc.1, nc.2 ++ ac.2 ++ dc.2 ++ vc.2)

/-- `validateExcelData` of errorHandling.ts. `none` models a non-array
argument. Early returns: non-array, empty file, and missing required
columns (reported at row 1) each yield a single error. Otherwise each row
is checked independently with `rowNum = index + 1`, errors accumulating
before warnings, and the function returns `[...errors, ...warnings]`. -/
def validateExcelData (pn : String → Option ℚ) (pd : String → Option ℤ)
    (now : ℤ) (data : Option (List Row)) : List Finding :=
  match data with
  | none =>
    [⟨0, none, "Invalid data format: Expected an array of rows", none,
      some Severity.error⟩]
  | some [] => [⟨0, none, "File is empty", none, some Severity.error⟩]
  | some (first :: rest) =>
    if missingColumnsOf first ≠ [] then
      [⟨1, none, "Missing required columns: " ++
        String.intercalate ", " (missingColumnsOf first), none, some Severity.error⟩]
    else
      let pairs := (first :: rest).enum.map
        (fun p => clientRowChecks pn pd now p.2 (p.1 + 1))
      (pairs.map Prod.fst).flatten ++ (pairs.map Prod.snd).flatten

/-- `validateSheetStructure` of errorHandling.ts. The first three checks
(non-array, empty, more than 10,000 rows) each return immediately; the
missing-columns check pushes its error and falls through to the
extra-columns check, which can append a warning. -/
def validateSheetStructure (data : Option (List Row)) : List Finding :=
  match data with
  | none =>
    [⟨0, none, "Invalid file format: Expected Excel data", none, some Severity.error⟩]
  | some [] => [⟨0, none, "Sheet is empty", none, some Severity.error⟩]
  | some (first :: rest) =>
    if (first :: rest).length > 10000 then
      [⟨0, none,
        "Sheet contains too many rows (>10,000). Please split the data into smaller files.",
        none, some Severity.error⟩]
    else
      (if missingColumnsOf first ≠ [] then
        [⟨0, none, "Missing required columns: " ++
          String.intercalate ", " (missingColumnsOf first), none, some Severity.error⟩]
      else []) ++
      (if extraColumnsOf first ≠ [] then
        [⟨0, none, "Warning: Found extra columns that will be ignored: " ++
          String.intercalate ", " (extraColumnsOf first), none, some Severity.warning⟩]
      else [])

/-- Bucket key of a finding in `formatValidationErrors`:
`error.sheetName || 'Unknown Sheet'`. -/
def bucketOf (f : Finding) : String :=
  match f.sheetName with
  | some s => if s == "" then "Unknown Sheet" else s
  | none => "Unknown Sheet"

/-- The message rewrite of `formatValidationErrors`:
`{...error, message: error.column ? column + ': ' + message : message}`. -/
def rewriteFinding (f : Finding) : Finding :=
  { f with message :=
      match f.column with
      | some c => if c == "" then f.message else c ++ ": " ++ f.message
      | none => f.message }

/-- `acc[sheetName].push(...)`, creating the bucket on first use: appends
`f` to the first bucket keyed `k`, or adds a new bucket at the end. -/
def addTo : List (String × List Finding) → String → Finding →
    List (String × List Finding)
  | [], k, f => [(k, [f])]
  | (k', l) :: rest, k, f =>
    if k' == k then (k', l ++ [f]) :: rest else (k', l) :: addTo rest k f

/-- `formatValidationErrors` of errorHandling.ts: the reduce that groups
findings into an object keyed by sheet name, rewriting each message. -/
def formatValidationErrors (errors : List Finding) : List (String × List Finding) :=
  errors.foldl (fun acc e => addTo acc (bucketOf e) (rewriteFinding e)) []

/-- Object property lookup on the mapping produced by
`formatValidationErrors`; `[]` when the key is absent. -/
def lookupBucket : List (String × List Finding) → String → List Finding
  | [], _ => []
  | p :: rest, k => if p.1 == k then p.2 else lookupBucket rest k

/-- The `ApiError` payload shape of errorHandling.ts (the `code` and
`details` fields are never read by `handleAxiosError` and are omitted). -/
structure ApiError where
  error : Option String := none
  errors : Option (List Finding) := none
  message : Option String := none

/-- The slice of an `AxiosError` that `handleAxiosError` reads:
`response` (status and decoded payload), the `request` object's presence,
`code`, and `message`. -/
structure AxiosErr where
  response : Option (ℕ × ApiError) := none
  request : Bool := false
  code : Option String := none
  message : String := ""

/-- JS truthiness of an optional string field (absent or `""` is falsy). -/
def optTruthy : Option String → Bool
  | some s => s != ""
  | none => false

/-- The `switch (error.response.status)` table of `handleAxiosError`. -/
def statusMessage (status : ℕ) : String :=
  if status = 400 then "Invalid data format. Please check your Excel file structure."
  else if status = 401 then "Unauthorized. Please log in again."
  else if status = 403 then "You do not have permission to perform this action."
  else if status = 404 then "The requested resource was not found."
  else if status = 413 then "The file is too large. Please split it into smaller files."
  else if status = 422 then "The uploaded file contains invalid data. Please check the file contents."
  else if status = 429 then "Too many requests. Please try again later."
  else if status = 500 then "Server error. Please try again later."
  else "Server error (" ++ toString status ++ "). Please try again later."

/-- `handleAxiosError` of errorHandling.ts: with a response, the first
error-severity entry of the payload's `errors` list wins, then the truthy
`error` field, then the truthy `message` field, then the status table;
without a response, a present `request` yields the connectivity message,
an `ECONNABORTED` code the timeout message, and otherwise the error's own
message or the supplied default. -/
def handleAxiosError (e : AxiosErr) (defaultMessage : String := "An error occurred") :
    String :=
  match e.response with
  | some (status, data) =>
    let critical : List Finding :=
      match data.errors with
      | some errs =>
        if errs.length > 0 then
          errs.filter (fun f => f.severity == some Severity.error)
        else []
      | none => []
    match critical with
    | f :: _ => f.message
    | [] =>
      if optTruthy data.error then data.error.getD ""
      else if optTruthy data.message then data.message.getD ""
      else statusMessage status
  | none =>
    if e.request then "No response from server. Please check your connection."
    else if e.code == some "ECONNABORTED" then
      "Request timed out. The file might be too large."
    else if e.message != "" then e.message
    else defaultMessage

/-- An entry of the server's per-sheet error list:
`{ sheet: sheetName, row: rowNumber, message }`. -/
structure SrvError where
  sheet : String
  row : ℕ
  message : String
deriving DecidableEq

/-- A field rule of `sheetConfigs.default.validations`
(backend/config/excel.config.js). The `transform` function, when present,
may throw, hence `Except`. -/
structure Validation where
  required : Bool
  type : String
  min : Option ℚ := none
  validator : Option String := none
  transform : Option (JSVal → Except String JSVal) := none

/-- The `verified` transform of excel.config.js,
`(value) => value.toLowerCase() === 'yes'`: on a non-string it throws
(`value.toLowerCase is not a function`). -/
def verifiedTransform : JSVal → Except String JSVal
  | JSVal.str s => Except.ok (JSVal.bool (jsToLower s == "yes"))
  | _ => Except.error "value.toLowerCase is not a function"

/-- `sheetConfigs.default.columnMapping` of excel.config.js. -/
def columnMapping : List (String × String) :=
  [("Name", "name"), ("Amount", "amount"), ("Date", "date"), ("Verified", "verified")]

/-- `sheetConfigs.default.validations` of excel.config.js. -/
def sheetConfigValidations : String → Validation
  | "name" => ⟨true, "string", none, none, none⟩
  | "amount" => ⟨true, "number", some 0, none, none⟩
  | "date" => ⟨true, "date", none, some "isCurrentMonth", none⟩
  | "verified" => ⟨false, "boolean", none, none, some verifiedTransform⟩
  | _ => ⟨false, "string", none, none, none⟩

/-- `ExcelService.validateField`: returns the transformed value or the
message of the thrown error. `icm` abstracts the `isCurrentMonth`
validator on the parsed timestamp. -/
def srvValidateField (pn : String → Option ℚ) (pd : String → Option ℤ)
    (icm : ℤ → Bool) (value : JSVal) (vd : Validation) (fieldName : String) :
    Except String JSVal :=
  if !(jsTruthy value) && !vd.required then Except.ok JSVal.null
  else if vd.type == "number" then
    match jsToNumber pn value with
    | none => Except.error (fieldName ++ " must be a number")
    | some num =>
      match vd.min with
      | some m =>
        if num < m then
          Except.error (fieldName ++ " must be greater than " ++ toString m)
        else Except.ok (JSVal.num num)
      | none => Except.ok (JSVal.num num)
  else if vd.type == "date" then
    match jsNewDate pd value with
    | none => Except.error (fieldName ++ " must be a valid date")
    | some t =>
      if vd.validator == some "isCurrentMonth" && !(icm t) then
        Except.error (fieldName ++ " must be in the current month")
      else Except.ok (JSVal.date t)
  else if vd.type == "boolean" then
    match vd.transform with
    | some tr => tr value
    | none => Except.ok (JSVal.bool (jsTruthy value))
  else Except.ok (JSVal.str (jsToString value))

/-- Result of `ExcelService.validateRow`. -/
structure SrvRowResult where
  isValid : Bool
  data : Option (List (String × JSVal))
  errors : List SrvError

/-- The `for (const [excelColumn, dbField] of Object.entries(columnMapping))`
loop of `ExcelService.validateRow`: a required falsy value records an
error and `continue`s; otherwise `validateField` either extends the
transformed record or records the thrown message. -/
def srvValidateRowAux (pn : String → Option ℚ) (pd : String → Option ℤ)
    (icm : ℤ → Bool) (row : Row) (rowNumber : ℕ) (sheetName : String) :
    List (String × String) → Bool → List (String × JSVal) → List SrvError →
    Bool × List (String × JSVal) × List SrvError
  | [], ok, td, errs => (ok, td, errs)
  | (col, dbField) :: restCols, ok, td, errs =>
    let value := getK row col
    let vd := sheetConfigValidations dbField
    if vd.required && !(jsTruthy value) then
      srvValidateRowAux pn pd icm row rowNumber sheetName restCols false td
        (errs ++ [⟨sheetName, rowNumber, col ++ " is required"⟩])
    else
      match srvValidateField pn pd icm value vd col with
      | Except.ok v =>
        srvValidateRowAux pn pd icm row rowNumber sheetName restCols ok
          (td ++ [(dbField, v)]) errs
      | Except.error m =>
        srvValidateRowAux pn pd icm row rowNumber sheetName restCols false td
          (errs ++ [⟨sheetName, rowNumber, m⟩])

/-- `ExcelService.validateRow` under the default sheet configuration. -/
def srvValidateRow (pn : String → Option ℚ) (pd : String → Option ℤ)
    (icm : ℤ → Bool) (row : Row) (rowNumber : ℕ) (sheetName : String) :
    SrvRowResult :=
  let r := srvValidateRowAux pn pd icm row rowNumber sheetName
    columnMapping true [] []
  ⟨r.1, if r.1 then some (r.2.1 ++ [("sheetName", JSVal.str sheetName)]) else none,
    r.2.2⟩

/-- `ExcelService.validateSheetData`: each row is validated with
`rowNumber = index + 2` (Excel rows are 1-based and the header is
skipped); valid rows collect into `valid`, the rest spread their errors. -/
def srvValidateSheetData (pn : String → Option ℚ) (pd : String → Option ℤ)
    (icm : ℤ → Bool) (data : List Row) (sheetName : String) :
    List (List (String × JSVal)) × List SrvError :=
  let results := data.enum.map
    (fun p => srvValidateRow pn pd icm p.2 (p.1 + 2) sheetName)
  (results.filterMap (fun r => if r.isValid then r.data else none),
   (results.map (fun r => if r.isValid then [] else r.errors)).flatten)

/-- Error-severity test used to state verdict properties. -/
def isErrF (f : Finding) : Bool := f.severity == some Severity.error

/-- A concrete `Number(string)` oracle: no string coerces (all NaN). -/
def pnNone : String → Option ℚ := fun _ => none

/-- A concrete date-parsing oracle: no string parses. -/
def pdNone : String → Option ℤ := fun _ => none

/-- A concrete `isCurrentMonth` oracle: always out of window. -/
def icmFalse : ℤ → Bool := fun _ => false

/-- A row every client check accepts: a short name, a moderate amount, a
`Date` cell decoded as a `Date` object, and a boolean `Verified` cell. -/
def demoRow : Row :=
  [("Name", JSVal.str "A"), ("Amount", JSVal.num 50),
   ("Date", JSVal.date 1700000000000), ("Verified", JSVal.bool true)]

/-- A row whose `Date` lies between two observation instants. -/
def clockRow : Row :=
  [("Name", JSVal.str "A"), ("Amount", JSVal.num 1),
   ("Date", JSVal.date 100), ("Verified", JSVal.bool true)]

/-- A first row missing `Verified` but carrying an extra column `Foo`. -/
def extraRow : Row :=
  [("Name", JSVal.str "A"), ("Amount", JSVal.num 1),
   ("Date", JSVal.str "2024-01-05"), ("Foo", JSVal.num 1)]

/-- A finding whose `column` and `sheetName` are present but empty. -/
def emptyColFinding : Finding := ⟨2, some "", "m", some "", some Severity.error⟩

/-- A first row with only a `Name` column. -/
def nameOnlyRow : Row := [("Name", JSVal.str "A")]

/-- A row with all four columns present but a null `Name` and an
unparseable `Date`. -/
def badNameRow : Row :=
  [("Name", JSVal.null), ("Amount", JSVal.num 5),
   ("Date", JSVal.str "x"), ("Verified", JSVal.bool true)]

/-- The client finding for `badNameRow` at array index 0. -/
def badNameFinding : Finding :=
  ⟨1, some "Name", "Name is required", none, some Severity.error⟩

/-- The server error for `badNameRow` at array index 0 of sheet `S`. -/
def badNameSrvError : SrvError := ⟨"S", 2, "Name is required"⟩

/-- A payload whose `errors` list holds a warning before an
error-severity entry, plus fallback `error` and `message` fields. -/
def payloadW : ApiError :=
  ⟨some "fallback", some [⟨3, none, "warn", none, some Severity.warning⟩,
    ⟨4, none, "boom", none, some Severity.error⟩], some "msg"⟩

/-! ### Helper lemmas about the per-field client checks -/
theorem clientNameCheck_fst (r : Row) (n : ℕ) :
    ∀ f ∈ (clientNameCheck r n).1,
      f.row = n ∧ f.severity = some Severity.error ∧ f.column.isSome = true := by
  intro f hf
  unfold clientNameCheck at hf
  dsimp only at hf
  repeat' split at hf
  all_goals simp_all

theorem clientNameCheck_snd (r : Row) (n : ℕ) :
    ∀ f ∈ (clientNameCheck r n).2,
      f.row = n ∧ f.severity = some Severity.warning ∧ f.column.isSome = true := by
  intro f hf
  unfold clientNameCheck at hf
  dsimp only at hf
  repeat' split at hf
  all_goals simp_all

theorem clientAmountCheck_fst (pn : String → Option ℚ) (r : Row) (n : ℕ) :
    ∀ f ∈ (clientAmountCheck pn r n).1,
      f.row = n ∧ f.severity = some Severity.error ∧ f.column.isSome = true := by
  intro f hf
  unfold clientAmountCheck at hf
  dsimp only at hf
  repeat' split at hf
  all_goals simp_all

theorem clientAmountCheck_snd (pn : String → Option ℚ) (r : Row) (n : ℕ) :
    ∀ f ∈ (clientAmountCheck pn r n).2,
      f.row = n ∧ f.severity = some Severity.warning ∧ f.column.isSome = true := by
  intro f hf
  unfold clientAmountCheck at hf
  dsimp only at hf
  repeat' split at hf
  all_goals simp_all

theorem clientDateCheck_fst (pd : String → Option ℤ) (now : ℤ) (r : Row) (n : ℕ) :
    ∀ f ∈ (clientDateCheck pd now r n).1,
      f.row = n ∧ f.severity = some Severity.error ∧ f.column.isSome = true := by
  intro f hf
  unfold clientDateCheck at hf
  dsimp only at hf
  repeat' split at hf
  all_goals simp_all

theorem clientDateCheck_snd (pd : String → Option ℤ) (now : ℤ) (r : Row) (n : ℕ) :
    ∀ f ∈ (clientDateCheck pd now r n).2,
      f.row = n ∧ f.severity = some Severity.warning ∧ f.column.isSome = true := by
  intro f hf
  unfold clientDateCheck at hf
  dsimp only at hf
  repeat' split at hf
  all_goals simp_all

theorem clientVerifiedCheck_fst (r : Row) (n : ℕ) :
    ∀ f ∈ (clientVerifiedCheck r n).1,
      f.row = n ∧ f.severity = some Severity.error ∧ f.column.isSome = true := by
  intro f hf
  unfold clientVerifiedCheck at hf
  dsimp only at hf
  repeat' split at hf
  all_goals simp_all

theorem clientVerifiedCheck_snd (r : Row) (n : ℕ) :
    ∀ f ∈ (clientVerifiedCheck r n).2,
      f.row = n ∧ f.severity = some Severity.warning ∧ f.column.isSome = true := by
  intro f hf
  unfold clientVerifiedCheck at hf
  dsimp only at hf
  repeat' split at hf
  all_goals simp_all

theorem clientRowChecks_fst (pn : String → Option ℚ) (pd : String → Option ℤ)
    (now : ℤ) (r : Row) (n : ℕ) :
    ∀ f ∈ (clientRowChecks pn pd now r n).1,
      f.row = n ∧ f.severity = some Severity.error ∧ f.column.isSome = true := by
  intro f hf
  unfold clientRowChecks at hf
  dsimp only at hf
  simp only [List.mem_append] at hf
  rcases hf with ((hf | hf) | hf) | hf
  · exact clientNameCheck_fst r n f hf
  · exact clientAmountCheck_fst pn r n f hf
  · exact clientDateCheck_fst pd now r n f hf
  · exact clientVerifiedCheck_fst r n f hf

theorem clientRowChecks_snd (pn : String → Option ℚ) (pd : String → Option ℤ)
    (now : ℤ) (r : Row) (n : ℕ) :
    ∀ f ∈ (clientRowChecks pn pd now r n).2,
      f.row = n ∧ f.severity = some Severity.warning ∧ f.column.isSome = true := by
  intro f hf
  unfold clientRowChecks at hf
  dsimp only at hf
  simp only [List.mem_append] at hf
  rcases hf with ((hf | hf) | hf) | hf
  · exact clientNameCheck_snd r n f hf
  · exact clientAmountCheck_snd pn r n f hf
  · exact clientDateCheck_snd pd now r n f hf
  · exact clientVerifiedCheck_snd r n f hf

theorem clientDateCheck_fst_clock (pd : String → Option ℤ) (now now' : ℤ)
    (r : Row) (n : ℕ) :
    (clientDateCheck pd now r n).1 = (clientDateCheck pd now' r n).1 := by
  unfold clientDateCheck
  dsimp only
  repeat' split
  all_goals rfl

theorem clientRowChecks_fst_clock (pn : String → Option ℚ) (pd : String → Option ℤ)
    (now now' : ℤ) (r : Row) (n : ℕ) :
    (clientRowChecks pn pd now r n).1 = (clientRowChecks pn pd now' r n).1 := by
  unfold clientRowChecks
  dsimp only
  rw [clientDateCheck_fst_clock pd now now' r n]

theorem fst_ge_of_mem_enumFrom {α : Type} (l : List α) (n : ℕ) (p : ℕ × α)
    (hp : p ∈ List.enumFrom n l) : n ≤ p.1 := by
  induction l generalizing n with
  | nil => cases hp
  | cons a l ih =>
    cases hp with
    | head => exact le_refl _
    | tail _ hp => exact le_trans (Nat.le_succ n) (ih (n + 1) hp)

theorem pairwise_enumFrom_fst_lt {α : Type} (l : List α) (n : ℕ) :
    (List.enumFrom n l).Pairwise (fun p q => p.1 < q.1) := by
  induction l generalizing n with
  | nil => exact List.Pairwise.nil
  | cons a l ih =>
    refine List.Pairwise.cons ?_ (ih (n + 1))
    intro q hq
    exact lt_of_lt_of_le (Nat.lt_succ_self n) (fst_ge_of_mem_enumFrom l (n + 1) q hq)

/-- Appending a finding to a bucket extends exactly that bucket. -/
theorem lookupBucket_addTo (acc : List (String × List Finding)) (k' k : String)
    (f : Finding) :
    lookupBucket (addTo acc k' f) k =
      lookupBucket acc k ++ (if k' = k then [f] else []) := by
  induction acc with
  | nil =>
    by_cases h : k' = k
    · subst h; simp [addTo, lookupBucket]
    · simp [addTo, lookupBucket, h]
  | cons p rest ih =>
    obtain ⟨kk, l⟩ := p
    by_cases hh : kk = k'
    · subst hh
      by_cases h : kk = k
      · subst h; simp [addTo, lookupBucket]
      · simp [addTo, lookupBucket, h]
    · by_cases h : kk = k
      · subst h
        simp [addTo, lookupBucket, hh, Ne.symm hh, ih]
      · simp [addTo, lookupBucket, h, hh, Ne.symm hh, ih]

theorem lookupBucket_foldl (es : List Finding) (acc : List (String × List Finding))
    (k : String) :
    lookupBucket (es.foldl (fun a e => addTo a (bucketOf e) (rewriteFinding e)) acc) k =
      lookupBucket acc k ++
        (es.filter (fun e => bucketOf e == k)).map rewriteFinding := by
  induction es generalizing acc with
  | nil => simp
  | cons e rest ih =>
    rw [List.foldl_cons, ih]
    rw [lookupBucket_addTo]
    by_cases h : bucketOf e = k
    · simp [h, List.filter_cons]
    · simp [h, List.filter_cons]
theorem srvValidateRowAux_row (pn : String → Option ℚ) (pd : String → Option ℤ)
    (icm : ℤ → Bool) (row : Row) (n : ℕ) (sheet : String) :
    ∀ (cols : List (String × String)) (ok : Bool) (td : List (String × JSVal))
      (errs : List SrvError), (∀ e ∈ errs, e.row = n) →
      ∀ e ∈ (srvValidateRowAux pn pd icm row n sheet cols ok td errs).2.2,
        e.row = n := by
  have hx : ∀ (m : String) (errs : List SrvError), (∀ e ∈ errs, e.row = n) →
      ∀ e ∈ errs ++ [(⟨sheet, n, m⟩ : SrvError)], e.row = n := by
    intro m errs h e he
    rcases List.mem_append.mp he with h' | h'
    · exact h e h'
    · simp at h'
      rw [h']
  intro cols
  induction cols with
  | nil => intro ok td errs h e he; exact h e he
  | cons c rest ih =>
    intro ok td errs h e he
    obtain ⟨col, dbField⟩ := c
    unfold srvValidateRowAux at he
    dsimp only at he
    split at he
    · exact ih false td _ (hx _ errs h) e he
    · split at he
      · exact ih ok _ errs h e he
      · exact ih false td _ (hx _ errs h) e he

theorem srvValidateRow_row (pn : String → Option ℚ) (pd : String → Option ℤ)
    (icm : ℤ → Bool) (row : Row) (n : ℕ) (sheet : String) :
    ∀ e ∈ (srvValidateRow pn pd icm row n sheet).errors, e.row = n := by
  intro e he
  unfold srvValidateRow at he
  dsimp only at he
  exact srvValidateRowAux_row pn pd icm row n sheet columnMapping true [] []
    (by intro e' he'; cases he') e he

/-- Claim C2: the finding list returned by `validateExcelData` is a stable
partition by severity: it splits as an error block followed by a warning
block, and row numbers are nondecreasing inside each block (original row
order). Proved for every input, so in particular for every row array that
reaches the per-row pass. -/
theorem validateExcelData_stable_severity_partition (pn : String → Option ℚ) (pd : String → Option ℤ) (now : ℤ)
    (data : Option (List Row)) :
    ∃ es ws, validateExcelData pn pd now data = es ++ ws ∧
      (∀ f ∈ es, f.severity = some Severity.error) ∧
      (∀ f ∈ ws, f.severity = some Severity.warning) ∧
      es.Pairwise (fun a b => a.row ≤ b.row) ∧
      ws.Pairwise (fun a b => a.row ≤ b.row) := by
  match data with
  | none =>
    exact ⟨[⟨0, none, "Invalid data format: Expected an array of rows", none,
      some Severity.error⟩], [], by simp [validateExcelData]⟩
  | some [] =>
    exact ⟨[⟨0, none, "File is empty", none, some Severity.error⟩], [],
      by simp [validateExcelData]⟩
  | some (first :: rest) =>
    by_cases hm : missingColumnsOf first ≠ []
    · refine ⟨[⟨1, none, "Missing required columns: " ++
        String.intercalate ", " (missingColumnsOf first), none, some Severity.error⟩],
        [], ?_⟩
      simp [validateExcelData, hm]
    · set pairs := (first :: rest).enum.map
        (fun p => clientRowChecks pn pd now p.2 (p.1 + 1)) with hpairs
      refine ⟨(pairs.map Prod.fst).flatten, (pairs.map Prod.snd).flatten, ?_, ?_, ?_, ?_, ?_⟩
      · simp [validateExcelData, hm, hpairs]
      · intro f hf
        rw [List.mem_flatten] at hf
        obtain ⟨l, hl, hfl⟩ := hf
        rw [List.mem_map] at hl
        obtain ⟨pr, hpr, rfl⟩ := hl
        rw [hpairs, List.mem_map] at hpr
        obtain ⟨p, hp, rfl⟩ := hpr
        exact (clientRowChecks_fst pn pd now p.2 (p.1 + 1) f hfl).2.1
      · intro f hf
        rw [List.mem_flatten] at hf
        obtain ⟨l, hl, hfl⟩ := hf
        rw [List.mem_map] at hl
        obtain ⟨pr, hpr, rfl⟩ := hl
        rw [hpairs, List.mem_map] at hpr
        obtain ⟨p, hp, rfl⟩ := hpr
        exact (clientRowChecks_snd pn pd now p.2 (p.1 + 1) f hfl).2.1
      · rw [List.pairwise_flatten]
        constructor
        · intro l hl
          rw [List.mem_map] at hl
          obtain ⟨pr, hpr, rfl⟩ := hl
          rw [hpairs, List.mem_map] at hpr
          obtain ⟨p, hp, rfl⟩ := hpr
          have hall := clientRowChecks_fst pn pd now p.2 (p.1 + 1)
          refine List.pairwise_of_forall_mem_list ?_
          intro a ha b hb
          rw [(hall a ha).1, (hall b hb).1]
        · rw [hpairs, List.map_map, List.pairwise_map]
          refine List.Pairwise.imp ?_
            (pairwise_enumFrom_fst_lt (first :: rest) 0)
          intro p q hpq x hx y hy
          simp only [Function.comp] at hx hy
          rw [(clientRowChecks_fst pn pd now p.2 (p.1 + 1) x hx).1,
            (clientRowChecks_fst pn pd now q.2 (q.1 + 1) y hy).1]
          exact Nat.succ_le_succ (le_of_lt hpq)
      · rw [List.pairwise_flatten]
        constructor
        · intro l hl
          rw [List.mem_map] at hl
          obtain ⟨pr, hpr, rfl⟩ := hl
          rw [hpairs, List.mem_map] at hpr
          obtain ⟨p, hp, rfl⟩ := hpr
          have hall := clientRowChecks_snd pn pd now p.2 (p.1 + 1)
          refine List.pairwise_of_forall_mem_list ?_
          intro a ha b hb
          rw [(hall a ha).1, (hall b hb).1]
        · rw [hpairs, List.map_map, List.pairwise_map]
          refine List.Pairwise.imp ?_
            (pairwise_enumFrom_fst_lt (first :: rest) 0)
          intro p q hpq x hx y hy
          simp only [Function.comp] at hx hy
          rw [(clientRowChecks_snd pn pd now p.2 (p.1 + 1) x hx).1,
            (clientRowChecks_snd pn pd now q.2 (q.1 + 1) y hy).1]
          exact Nat.succ_le_succ (le_of_lt hpq)

/-- Claim C6 (amended): `validateSheetStructure` takes no clock and is a
pure function of its input by construction; `validateExcelData` is a pure
function of the pair (input, clock), and its error-severity findings are
the same whatever the clock reads — only the future-date warning can
change between two runs. -/
theorem validateExcelData_errors_clock_independent (pn : String → Option ℚ) (pd : String → Option ℤ)
    (now now' : ℤ) (data : Option (List Row)) :
    (validateExcelData pn pd now data).filter isErrF =
    (validateExcelData pn pd now' data).filter isErrF := by
  match data with
  | none => rfl
  | some [] => rfl
  | some (first :: rest) =>
    by_cases hm : missingColumnsOf first ≠ []
    · simp [validateExcelData, hm]
    · have key : ∀ nw : ℤ,
        (validateExcelData pn pd nw (some (first :: rest))).filter isErrF =
        (((first :: rest).enum.map
          (fun p => (clientRowChecks pn pd nw p.2 (p.1 + 1)).1)).flatten) := by
        intro nw
        have hval : validateExcelData pn pd nw (some (first :: rest)) =
            ((((first :: rest).enum.map
              (fun p => clientRowChecks pn pd nw p.2 (p.1 + 1))).map Prod.fst).flatten ++
             (((first :: rest).enum.map
              (fun p => clientRowChecks pn pd nw p.2 (p.1 + 1))).map Prod.snd).flatten) := by
          simp [validateExcelData, hm]
        rw [hval, List.filter_append]
        have hE : ((((first :: rest).enum.map
            (fun p => clientRowChecks pn pd nw p.2 (p.1 + 1))).map Prod.fst).flatten).filter
              isErrF =
            (((first :: rest).enum.map
              (fun p => clientRowChecks pn pd nw p.2 (p.1 + 1))).map Prod.fst).flatten := by
          rw [List.filter_eq_self]
          intro a ha
          rw [List.mem_flatten] at ha
          obtain ⟨l, hl, hal⟩ := ha
          rw [List.mem_map] at hl
          obtain ⟨pr, hpr, rfl⟩ := hl
          rw [List.mem_map] at hpr
          obtain ⟨p, hp, rfl⟩ := hpr
          have := (clientRowChecks_fst pn pd nw p.2 (p.1 + 1) a hal).2.1
          simp [isErrF, this]
        have hW : ((((first :: rest).enum.map
            (fun p => clientRowChecks pn pd nw p.2 (p.1 + 1))).map Prod.snd).flatten).filter
              isErrF = [] := by
          rw [List.filter_eq_nil_iff]
          intro a ha
          rw [List.mem_flatten] at ha
          obtain ⟨l, hl, hal⟩ := ha
          rw [List.mem_map] at hl
          obtain ⟨pr, hpr, rfl⟩ := hl
          rw [List.mem_map] at hpr
          obtain ⟨p, hp, rfl⟩ := hpr
          have := (clientRowChecks_snd pn pd nw p.2 (p.1 + 1) a hal).2.1
          simp [isErrF, this]
        rw [hE, hW, List.append_nil, List.map_map]
        rfl
      rw [key now, key now']
      have : (fun (p : ℕ × Row) => (clientRowChecks pn pd now p.2 (p.1 + 1)).1) =
          (fun (p : ℕ × Row) => (clientRowChecks pn pd now' p.2 (p.1 + 1)).1) := by
        funext p
        exact clientRowChecks_fst_clock pn pd now now' p.2 (p.1 + 1)
      rw [this]

/-- Claim C6 (counterexample): re-running the row validator on the same
single-row input at clock instants on either side of the row's date
yields different finding lists (the future-date warning appears only in
the earlier run), so `validateExcelData` is not a pure function of the
row collection alone. -/
theorem validateExcelData_clock_sensitive :
    validateExcelData pnNone pdNone 0 (some [clockRow]) ≠
    validateExcelData pnNone pdNone 200 (some [clockRow]) := by
  intro h
  have h1 : validateExcelData pnNone pdNone 0 (some [clockRow]) =
      [⟨1, some "Date", "Date is in the future", none, some Severity.warning⟩] := rfl
  have h2 : validateExcelData pnNone pdNone 200 (some [clockRow]) = [] := rfl
  rw [h1, h2] at h
  cases h

/-- Claim C5 (amended): when checks 1-3 pass and the first row is missing
a required column, `validateSheetStructure` emits the error listing the
missing column names first, but does not return immediately: the
extra-columns check still runs and appends its warning when the first row
has extra columns; the result is exactly the one error only when there
are no extra columns. -/
theorem validateSheetStructure_missing_columns_amended (first : Row) (rest : List Row)
    (hlen : (first :: rest).length ≤ 10000)
    (hm : missingColumnsOf first ≠ []) :
    validateSheetStructure (some (first :: rest)) =
      ⟨0, none, "Missing required columns: " ++
        String.intercalate ", " (missingColumnsOf first), none, some Severity.error⟩ ::
      (if extraColumnsOf first ≠ [] then
        [⟨0, none, "Warning: Found extra columns that will be ignored: " ++
          String.intercalate ", " (extraColumnsOf first), none, some Severity.warning⟩]
      else []) := by
  have hgt : ¬ (10000 < rest.length + 1) := by
    simp only [List.length_cons] at hlen
    omega
  simp [validateSheetStructure, hgt, hm]

/-- Claim C5 (witness): a first row with only a `Name` column passes the
structural checks 1-3, misses three required columns, has no extra
columns, and yields exactly the single missing-columns error. -/
theorem validateSheetStructure_missing_columns_amended_witness :
    (([nameOnlyRow] : List Row).length ≤ 10000 ∧
      missingColumnsOf nameOnlyRow ≠ []) ∧
    validateSheetStructure (some [nameOnlyRow]) =
      [⟨0, none, "Missing required columns: " ++
        String.intercalate ", " (missingColumnsOf nameOnlyRow), none,
        some Severity.error⟩] := by
  refine ⟨⟨by decide, by decide⟩, ?_⟩
  have h := validateSheetStructure_missing_columns_amended nameOnlyRow []
    (by decide) (by decide)
  rw [h]
  have hx : extraColumnsOf nameOnlyRow = [] := rfl
  simp [hx]

/-- Claim C5 (counterexample): with the required column `Verified` missing
and an extra column `Foo` present in the first row, `validateSheetStructure`
returns two findings — the missing-columns error and the extra-columns
warning — not exactly one, so the missing-columns check does not
short-circuit the extra-columns check. -/
theorem validateSheetStructure_missing_plus_extra :
    validateSheetStructure (some [extraRow]) =
      [⟨0, none, "Missing required columns: Verified", none, some Severity.error⟩,
       ⟨0, none, "Warning: Found extra columns that will be ignored: Foo", none,
        some Severity.warning⟩] := rfl

/-- Claim C3 (amended): for the `Verified` field, a string input is
lower-cased, trimmed, and compared with the single token `yes`: it maps
to `true` exactly when the result is `yes` and to `false` otherwise (in
particular `"true"`, `"no"` and `"false"` all map to `false`); a boolean
input is returned unchanged; any other type maps to `null`. -/
theorem normalizeVerified_amended (pd : String → Option ℤ) (s : String) (b : Bool) (x : ℚ) (t : ℤ) :
    normalizeCell pd "Verified" (JSVal.str s) =
      JSVal.bool (jsTrim (jsToLower s) == "yes") ∧
    normalizeCell pd "Verified" (JSVal.bool b) = JSVal.bool b ∧
    normalizeCell pd "Verified" JSVal.null = JSVal.null ∧
    normalizeCell pd "Verified" (JSVal.num x) = JSVal.null ∧
    normalizeCell pd "Verified" (JSVal.date t) = JSVal.null ∧
    normalizeCell pd "Verified" (JSVal.str " Yes ") = JSVal.bool true ∧
    normalizeCell pd "Verified" (JSVal.str "no") = JSVal.bool false ∧
    normalizeCell pd "Verified" (JSVal.str "false") = JSVal.bool false :=
  ⟨rfl, rfl, rfl, rfl, rfl, rfl, rfl, rfl⟩

/-- Claim C3 (counterexample): the token `"true"` does not normalize to
`true` — the code compares only against `"yes"` and yields `false`. -/
theorem normalizeVerified_true_maps_to_false :
    normalizeCell pdNone "Verified" (JSVal.str "true") = JSVal.bool false ∧
    JSVal.bool false ≠ JSVal.bool true := ⟨rfl, by simp⟩

/-- Claim C4 (amended): for a field whose name matches the date pattern,
a nonzero numeric input `v` maps to the calendar date `v` days after the
1900 spreadsheet epoch (day 0 = 1899-12-30) rendered as `YYYY-MM-DD`; a
nonempty string input is parsed as a date literal and rendered the same
way when it parses, `null` otherwise; an absent input, the number `0`, or
the empty string (all falsy) map to `null`. -/
theorem normalizeDate_amended (pd : String → Option ℤ) (k : String)
    (hkv : k ≠ "Verified") (hk : dateKey k = true) :
    (∀ v : ℤ, v ≠ 0 →
      normalizeCell pd k (JSVal.num (v : ℚ)) =
        JSVal.str (isoDateOfDays (v - 25569))) ∧
    (∀ s ms, s ≠ "" → pd s = some ms →
      normalizeCell pd k (JSVal.str s) = JSVal.str (msToIsoDate ms)) ∧
    (∀ s, s ≠ "" → pd s = none →
      normalizeCell pd k (JSVal.str s) = JSVal.null) ∧
    normalizeCell pd k JSVal.null = JSVal.null ∧
    normalizeCell pd k (JSVal.num 0) = JSVal.null ∧
    normalizeCell pd k (JSVal.str "") = JSVal.null := by
  have hb : (k == "Verified") = false := by simp [hkv]
  refine ⟨?_, ?_, ?_, ?_, ?_, ?_⟩
  · intro v hv
    have htr : jsTruthy (JSVal.num (v : ℚ)) = true := by
      simp [jsTruthy]
      exact_mod_cast hv
    have h1 : ((v : ℚ) - 25569) * 86400000 + 1/2 =
        ((((v - 25569) * 86400000 : ℤ) : ℚ)) + 1/2 := by push_cast; ring
    have h2 : jsRound (((v : ℚ) - 25569) * 86400000) = (v - 25569) * 86400000 := by
      unfold jsRound
      rw [h1, Int.floor_int_add]
      norm_num
    have h3 : msToIsoDate ((v - 25569) * 86400000) = isoDateOfDays (v - 25569) := by
      unfold msToIsoDate
      rw [Int.mul_fdiv_cancel _ (by norm_num)]
    simp [normalizeCell, hb, hk, htr, h2, h3]
  · intro s ms hs hpd
    have htr : jsTruthy (JSVal.str s) = true := by simp [jsTruthy, hs]
    simp [normalizeCell, hb, hk, htr, hpd]
  · intro s hs hpd
    have htr : jsTruthy (JSVal.str s) = true := by simp [jsTruthy, hs]
    simp [normalizeCell, hb, hk, htr, hpd]
  · simp [normalizeCell, hb, hk, jsTruthy]
  · simp [normalizeCell, hb, hk, jsTruthy]
  · simp [normalizeCell, hb, hk, jsTruthy]

/-- Claim C4 (witness): the serial number 45000 under a date-named column
converts to the day count 45000 - 25569 past the Unix epoch, which
renders as 2023-03-15. -/
theorem normalizeDate_amended_witness :
    ("Date" ≠ "Verified" ∧ dateKey "Date" = true ∧ (45000 : ℤ) ≠ 0) ∧
    normalizeCell pdNone "Date" (JSVal.num ((45000 : ℤ) : ℚ)) =
      JSVal.str (isoDateOfDays ((45000 : ℤ) - 25569)) ∧
    isoDateOfDays ((45000 : ℤ) - 25569) = "2023-03-15" := by
  refine ⟨⟨by decide, rfl, by decide⟩, ?_, rfl⟩
  exact (normalizeDate_amended pdNone "Date" (by decide) rfl).1 45000 (by decide)

/-- Claim C4 (counterexample): the numeric input `0` is falsy, so the code
maps it to `null` instead of the claimed serial-0 date 1899-12-30. -/
theorem normalizeDate_zero_serial_null :
    normalizeCell pdNone "Date" (JSVal.num 0) = JSVal.null ∧
    isoDateOfDays (0 - 25569) = "1899-12-30" := ⟨rfl, rfl⟩

/-- Claim C10: for a date-named field, a truthy value that is neither a
number nor a string (such as a `Date` object produced by decoding with
`cellDates: true`) passes through normalization completely unchanged. -/
theorem normalizeDate_nonprimitive_passthrough (pd : String → Option ℤ) (k : String) (v : JSVal)
    (hkv : k ≠ "Verified") (hk : dateKey k = true) (htr : jsTruthy v = true)
    (hnum : ∀ x, v ≠ JSVal.num x) (hstr : ∀ s, v ≠ JSVal.str s) :
    normalizeCell pd k v = v := by
  have hb : (k == "Verified") = false := by
    simp [hkv]
  cases v with
  | null => simp [jsTruthy] at htr
  | num x => exact absurd rfl (hnum x)
  | str s => exact absurd rfl (hstr s)
  | bool b => simp [normalizeCell, hb, hk, htr]
  | date t => simp [normalizeCell, hb, hk, jsTruthy]

/-- Claim C10 (witness): a `Date` object under the `Date` column is left
untouched by normalization. -/
theorem normalizeDate_nonprimitive_passthrough_witness :
    ("Date" ≠ "Verified" ∧ dateKey "Date" = true ∧
      jsTruthy (JSVal.date 1234) = true) ∧
    normalizeCell pdNone "Date" (JSVal.date 1234) = JSVal.date 1234 :=
  ⟨⟨by decide, rfl, rfl⟩,
    normalizeDate_nonprimitive_passthrough pdNone "Date" (JSVal.date 1234)
      (by decide) rfl rfl (fun x h => JSVal.noConfusion h)
      (fun s h => JSVal.noConfusion h)⟩

/-- Claim C7 (amended): `formatValidationErrors` buckets each finding
under its `sheetName` when that is a nonempty string and under
`"Unknown Sheet"` otherwise (absent or empty); each bucket lists, in
input order, the findings of that bucket with the message rewritten to
`"column: message"` exactly when `column` is a nonempty string and left
unchanged otherwise; the input findings themselves are not mutated (the
function is pure and rebuilds every record). -/
theorem formatValidationErrors_grouping_amended (errors : List Finding) (k : String) :
    lookupBucket (formatValidationErrors errors) k =
      (errors.filter (fun e => bucketOf e == k)).map rewriteFinding := by
  unfold formatValidationErrors
  rw [lookupBucket_foldl]
  simp [lookupBucket]

/-- Claim C7 (counterexample): a finding whose `column` and `sheetName`
are present but empty is bucketed under `"Unknown Sheet"` (not under
`""`) with its message unchanged (not rewritten to `": m"`), so presence
alone does not govern either the bucket or the rewrite — truthiness
does. -/
theorem formatValidationErrors_falsy_fields :
    lookupBucket (formatValidationErrors [emptyColFinding]) "Unknown Sheet" =
      [emptyColFinding] ∧
    lookupBucket (formatValidationErrors [emptyColFinding]) "" = [] := ⟨rfl, rfl⟩

/-- Claim C8: `handleAxiosError` selects the displayed message by
priority: with a response, the first error-severity entry of the
payload's `errors` list wins verbatim, then the truthy `error` field,
then the truthy `message` field; with no response received, the presence
of a `request` yields the fixed connectivity message; an aborted request
(`ECONNABORTED`) yields the fixed timeout message. -/
theorem handleAxiosError_priority (st : ℕ) (d : ApiError) (req : Bool) (code : Option String)
    (msg dm : String) :
    (∀ l f rest, d.errors = some l → l ≠ [] →
      l.filter (fun x => x.severity == some Severity.error) = f :: rest →
      handleAxiosError ⟨some (st, d), req, code, msg⟩ dm = f.message) ∧
    ((d.errors.getD []).filter (fun x => x.severity == some Severity.error) = [] →
      optTruthy d.error = true →
      handleAxiosError ⟨some (st, d), req, code, msg⟩ dm = d.error.getD "") ∧
    ((d.errors.getD []).filter (fun x => x.severity == some Severity.error) = [] →
      optTruthy d.error = false → optTruthy d.message = true →
      handleAxiosError ⟨some (st, d), req, code, msg⟩ dm = d.message.getD "") ∧
    (handleAxiosError ⟨none, true, code, msg⟩ dm =
      "No response from server. Please check your connection.") ∧
    (code = some "ECONNABORTED" →
      handleAxiosError ⟨none, false, code, msg⟩ dm =
        "Request timed out. The file might be too large.") := by
  refine ⟨?_, ?_, ?_, ?_, ?_⟩
  · intro l f rest hl hne hfilter
    unfold handleAxiosError
    dsimp only
    rw [hl]
    have hlen : l.length > 0 := by
      cases l with
      | nil => exact absurd rfl hne
      | cons a as => simp
    simp only [if_pos hlen, hfilter]
  · intro hfilter htruthy
    unfold handleAxiosError
    dsimp only
    have hcrit : (match d.errors with
        | some errs => if errs.length > 0 then
            errs.filter (fun f => f.severity == some Severity.error)
          else []
        | none => []) = ([] : List Finding) := by
      match h : d.errors with
      | none => rfl
      | some errs =>
        rw [h] at hfilter
        simp only [Option.getD] at hfilter
        by_cases hlen : errs.length > 0
        · simp [hlen, hfilter]
        · simp [hlen]
    rw [hcrit]
    simp [htruthy]
  · intro hfilter hfe htruthy
    unfold handleAxiosError
    dsimp only
    have hcrit : (match d.errors with
        | some errs => if errs.length > 0 then
            errs.filter (fun f => f.severity == some Severity.error)
          else []
        | none => []) = ([] : List Finding) := by
      match h : d.errors with
      | none => rfl
      | some errs =>
        rw [h] at hfilter
        simp only [Option.getD] at hfilter
        by_cases hlen : errs.length > 0
        · simp [hlen, hfilter]
        · simp [hlen]
    rw [hcrit]
    simp [hfe, htruthy]
  · rfl
  · intro hcode
    unfold handleAxiosError
    simp [hcode]

/-- Claim C8 (witness): concrete payloads exercising the errors-list,
connectivity and timeout clauses. -/
theorem handleAxiosError_priority_witness :
    handleAxiosError ⟨some (400, payloadW), false, none, ""⟩ "An error occurred" =
      "boom" ∧
    handleAxiosError ⟨none, true, none, ""⟩ "An error occurred" =
      "No response from server. Please check your connection." ∧
    handleAxiosError ⟨none, false, some "ECONNABORTED", ""⟩ "An error occurred" =
      "Request timed out. The file might be too large." :=
  ⟨(handleAxiosError_priority 400 payloadW false none "" "An error occurred").1
      [⟨3, none, "warn", none, some Severity.warning⟩,
       ⟨4, none, "boom", none, some Severity.error⟩]
      ⟨4, none, "boom", none, some Severity.error⟩ [] rfl (by decide) rfl,
   (handleAxiosError_priority 400 payloadW false none "" "An error occurred").2.2.2.1,
   (handleAxiosError_priority 400 payloadW false (some "ECONNABORTED") ""
      "An error occurred").2.2.2.2 rfl⟩

/-- Claim C9: every per-row finding of the client validator (those
carrying a `column`) stems from the row at some array index `i` and
reports `row = i + 1`, while every error of the server validator stems
from the row at some array index `i` and reports `row = i + 2`; the two
environments thus label the same physical row with numbers differing by
exactly one. -/
theorem row_numbering_offset_by_environment (pn : String → Option ℚ) (pd : String → Option ℤ) (icm : ℤ → Bool)
    (sheet : String) (now : ℤ) (data : List Row) :
    (∀ f ∈ validateExcelData pn pd now (some data), f.column.isSome = true →
      ∃ p ∈ data.enum, f.row = p.1 + 1 ∧
        (f ∈ (clientRowChecks pn pd now p.2 (p.1 + 1)).1 ∨
         f ∈ (clientRowChecks pn pd now p.2 (p.1 + 1)).2)) ∧
    (∀ e ∈ (srvValidateSheetData pn pd icm data sheet).2,
      ∃ p ∈ data.enum, e.row = p.1 + 2 ∧
        e ∈ (srvValidateRow pn pd icm p.2 (p.1 + 2) sheet).errors) := by
  constructor
  · intro f hf hcol
    match data with
    | [] =>
      simp [validateExcelData] at hf
      rw [hf] at hcol
      simp at hcol
    | first :: rest =>
      by_cases hm : missingColumnsOf first ≠ []
      · simp [validateExcelData, hm] at hf
        rw [hf] at hcol
        simp at hcol
      · have hval : validateExcelData pn pd now (some (first :: rest)) =
            ((((first :: rest).enum.map
              (fun p => clientRowChecks pn pd now p.2 (p.1 + 1))).map Prod.fst).flatten ++
             (((first :: rest).enum.map
              (fun p => clientRowChecks pn pd now p.2 (p.1 + 1))).map Prod.snd).flatten) := by
          simp [validateExcelData, hm]
        rw [hval] at hf
        rcases List.mem_append.mp hf with h | h
        · rw [List.mem_flatten] at h
          obtain ⟨l, hl, hfl⟩ := h
          rw [List.mem_map] at hl
          obtain ⟨pr, hpr, rfl⟩ := hl
          rw [List.mem_map] at hpr
          obtain ⟨p, hp, rfl⟩ := hpr
          exact ⟨p, hp, (clientRowChecks_fst pn pd now p.2 (p.1 + 1) f hfl).1,
            Or.inl hfl⟩
        · rw [List.mem_flatten] at h
          obtain ⟨l, hl, hfl⟩ := h
          rw [List.mem_map] at hl
          obtain ⟨pr, hpr, rfl⟩ := hl
          rw [List.mem_map] at hpr
          obtain ⟨p, hp, rfl⟩ := hpr
          exact ⟨p, hp, (clientRowChecks_snd pn pd now p.2 (p.1 + 1) f hfl).1,
            Or.inr hfl⟩
  · intro e he
    unfold srvValidateSheetData at he
    dsimp only at he
    rw [List.mem_flatten] at he
    obtain ⟨l, hl, hel⟩ := he
    rw [List.mem_map] at hl
    obtain ⟨r, hr, rfl⟩ := hl
    rw [List.mem_map] at hr
    obtain ⟨p, hp, rfl⟩ := hr
    by_cases hv : (srvValidateRow pn pd icm p.2 (p.1 + 2) sheet).isValid
    · rw [if_pos hv] at hel
      cases hel
    · rw [if_neg hv] at hel
      exact ⟨p, hp,
        srvValidateRow_row pn pd icm p.2 (p.1 + 2) sheet e hel, hel⟩

/-- Claim C9 (witness): for the row at array index 0 with a null `Name`,
the client reports the missing name at row 1 and the server reports it at
row 2. -/
theorem row_numbering_offset_by_environment_witness :
    (∃ p ∈ ([badNameRow] : List Row).enum, badNameFinding.row = p.1 + 1 ∧
      (badNameFinding ∈ (clientRowChecks pnNone pdNone 0 p.2 (p.1 + 1)).1 ∨
       badNameFinding ∈ (clientRowChecks pnNone pdNone 0 p.2 (p.1 + 1)).2)) ∧
    (∃ p ∈ ([badNameRow] : List Row).enum, badNameSrvError.row = p.1 + 2 ∧
      badNameSrvError ∈
        (srvValidateRow pnNone pdNone icmFalse p.2 (p.1 + 2) "S").errors) :=
  ⟨(row_numbering_offset_by_environment pnNone pdNone icmFalse "S" 0
      [badNameRow]).1 badNameFinding (by decide) rfl,
   (row_numbering_offset_by_environment pnNone pdNone icmFalse "S" 0
      [badNameRow]).2 badNameSrvError (by decide)⟩

/-- Claim C1: the client-side verdict and the server-side verdict are not
equivalent. On `demoRow` — a row the client pipeline (App.tsx
normalization followed by `validateExcelData`) accepts with no
error-severity finding for every clock reading and every parsing oracle —
the server's `validateRow` returns `isValid = false` for every clock
window and every oracle, because the configured `verified` transform
`value.toLowerCase()` comparison against `yes` throws on the boolean
cell value. -/
theorem client_server_verdicts_diverge (pn : String → Option ℚ) (pd : String → Option ℤ) (icm : ℤ → Bool)
    (now : ℤ) (n : ℕ) (sheet : String) :
    (validateExcelData pn pd now (some [normalizeRow pd demoRow])).filter isErrF = [] ∧
    (srvValidateRow pn pd icm demoRow n sheet).isValid = false := by
  constructor
  · have hn : normalizeRow pd demoRow = demoRow := rfl
    rw [hn]
    have hval : validateExcelData pn pd now (some [demoRow]) =
        (clientRowChecks pn pd now demoRow 1).1 ++
        (clientRowChecks pn pd now demoRow 1).2 := by
      have hm : missingColumnsOf demoRow = [] := rfl
      simp [validateExcelData, hm]
    rw [hval, List.filter_append]
    have hE : (clientRowChecks pn pd now demoRow 1).1 = [] := rfl
    rw [hE]
    simp only [List.filter_nil, List.nil_append]
    rw [List.filter_eq_nil_iff]
    intro a ha
    have := (clientRowChecks_snd pn pd now demoRow 1 a ha).2.1
    simp [isErrF, this]
  · have g1 : getK demoRow "Name" = JSVal.str "A" := rfl
    have g2 : getK demoRow "Amount" = JSVal.num 50 := rfl
    have g3 : getK demoRow "Date" = JSVal.date 1700000000000 := rfl
    have g4 : getK demoRow "Verified" = JSVal.bool true := rfl
    have f1 : srvValidateField pn pd icm (JSVal.str "A")
        ⟨true, "string", none, none, none⟩ "Name" = Except.ok (JSVal.str "A") := rfl
    have f2 : srvValidateField pn pd icm (JSVal.num 50)
        ⟨true, "number", some 0, none, none⟩ "Amount" = Except.ok (JSVal.num 50) := rfl
    have f4 : srvValidateField pn pd icm (JSVal.bool true)
        ⟨false, "boolean", none, none, some verifiedTransform⟩ "Verified" =
        Except.error "value.toLowerCase is not a function" := rfl
    cases hicm : icm 1700000000000 with
    | false =>
      have f3 : srvValidateField pn pd icm (JSVal.date 1700000000000)
          ⟨true, "date", none, some "isCurrentMonth", none⟩ "Date" =
          Except.error "Date must be in the current month" := by
        simp [srvValidateField, jsTruthy, jsNewDate, hicm]
      simp [srvValidateRow, srvValidateRowAux, columnMapping, g1, g2, g3, g4,
        f1, f2, f3, f4, sheetConfigValidations, jsTruthy]
    | true =>
      have f3 : srvValidateField pn pd icm (JSVal.date 1700000000000)
          ⟨true, "date", none, some "isCurrentMonth", none⟩ "Date" =
          Except.ok (JSVal.date 1700000000000) := by
        simp [srvValidateField, jsTruthy, jsNewDate, hicm]
      simp [srvValidateRow, srvValidateRowAux, columnMapping, g1, g2, g3, g4,
        f1, f2, f3, f4, sheetConfigValidations, jsTruthy]
